import Mathlib

/-!
Verification of the restaurant cost-calculation repository.

The development shallowly embeds the two core modules:

* `src/price_manager.py` — the Price Store (`PriceManager`): validated bulk
  update of ingredient prices with history archival, persistence to a backing
  file, and backup/restore.
* `src/cost_calculator.py` — the Cost Engine: `calculate_dish_cost` and
  `calculate_course_cost` over the static catalog in
  `src/menu_definitions.py` (`DISHES`, `COURSES`, `DISCOUNT_RULES`, `DRINKS`).

Python dictionaries are embedded as insertion-ordered association lists with
unique keys (`List (String × α)`); `dict.get` is first-match lookup and
`dict.update` replaces a present key in place or appends a new key at the end.
Python runtime values that may appear as JSON / dictionary values are embedded
by `PyVal`; Python's `isinstance(v, (int, float))` test is `PyVal.isNumeric`
(note `bool` is a subclass of `int` in Python, so booleans count as numeric).
Numeric arithmetic is carried out in `ℚ`, which models the exact int/float
arithmetic the reference tests exercise.

File-system state (the backing price file, the history file and the `.bak`
backup file) is embedded explicitly in `StoreState`; a JSON file is either
`malformed` (not parseable) or a parsed JSON object `obj`.
-/

/-- A Python runtime value as it may occur in a price dictionary or a JSON
object: a bool, an int, a float (embedded exactly as a rational), or a
string. -/
inductive PyVal where
  | vBool (b : Bool)
  | vInt (n : Int)
  | vFloat (q : ℚ)
  | vStr (s : String)
deriving DecidableEq, Repr

namespace PyVal

/-- Python's `isinstance(value, (int, float))` as used by
`PriceManager._validate_prices`.  `bool` is a subclass of `int` in Python,
so booleans pass the test; strings do not. -/
def isNumeric : PyVal → Bool
  | vBool _ => true
  | vInt _ => true
  | vFloat _ => true
  | vStr _ => false

/-- The numeric value a `PyVal` denotes in Python arithmetic
(`True` is `1`, `False` is `0`).  Only applied to numeric values in the
embedding; the `vStr` clause is an unused total-function default. -/
def toNum : PyVal → ℚ
  | vBool b => bif b then 1 else 0
  | vInt n => (n : ℚ)
  | vFloat q => q
  | vStr _ => 0

end PyVal

/-- First-match lookup in an insertion-ordered association list: Python's
`d.get(k)` / `d[k]`. -/
def dictGet {α : Type} (d : List (String × α)) (k : String) : Option α :=
  (d.find? (fun p => p.1 == k)).map (fun p => p.2)

/-- Store one binding: replace the first occurrence of the key in place, or
append at the end — Python `d[k] = v` on a dict with unique keys. -/
def dictInsert {α : Type} : List (String × α) → String → α → List (String × α)
  | [], k, v => [(k, v)]
  | (k', v') :: rest, k, v =>
    if k' == k then (k, v) :: rest
    else (k', v') :: dictInsert rest k v

/-- Python's `d.update(upd)`: store each binding of `upd` in order. -/
def dictUpdate {α : Type} (d upd : List (String × α)) : List (String × α) :=
  upd.foldl (fun acc p => dictInsert acc p.1 p.2) d

/-- The reserved descriptive key of the price file (`"食材マスタ"`), stripped
on load and re-added on save. -/
def masterKey : String := "食材マスタ"

/-- The comment text that `_save_prices_to_file` stores under the reserved
key. -/
def masterDesc : String := "グラム(g)または個数(piece)あたりの円建て単価"

/-- The parse outcome of a JSON file: unparseable text, or a parsed JSON
object (an ordered association of keys to values). -/
inductive FileData where
  | malformed
  | obj (entries : List (String × PyVal))
deriving DecidableEq, Repr

namespace PriceManager

/-- `if "食材マスタ" in data: del data["食材マスタ"]`. -/
def stripMaster (d : List (String × PyVal)) : List (String × PyVal) :=
  d.filter (fun p => p.1 != masterKey)

/-- `PriceManager._validate_prices`: keeps every binding whose value is
numeric (`isinstance(value, (int, float))`), and produces one error message
per non-numeric binding.  There is no negativity check in the source. -/
def validatePrices : List (String × PyVal) → List (String × PyVal) × List String
  | [] => ([], [])
  | (k, v) :: rest =>
    let r := validatePrices rest
    if v.isNumeric then ((k, v) :: r.1, r.2)
    else (r.1, (s!"invalid non-numeric price for {k}") :: r.2)

/-- One entry of the price-history file: the update timestamp together with
the prior values of the keys that the update overwrote. -/
structure HistoryEntry where
  timestamp : Nat
  archivedPrices : List (String × PyVal)
deriving DecidableEq, Repr

/-- The full observable state of a `PriceManager` together with the files it
owns: the in-memory price dict, the backing data file, the parsed history
file, and the `.bak` backup file (`none` when the file does not exist). -/
structure StoreState where
  prices : List (String × PyVal)
  file : Option FileData
  history : List HistoryEntry
  backupFile : Option FileData
deriving DecidableEq, Repr

/-- `PriceManager._load_prices`: a missing file or a `json.JSONDecodeError`
yields the empty dict (with a printed diagnostic only); a parsed object is
stripped of the reserved key and filtered through `_validate_prices`,
keeping only the numeric bindings.  The function is total: no error is ever
raised to the caller. -/
def loadPrices : Option FileData → List (String × PyVal)
  | none => []
  | some FileData.malformed => []
  | some (FileData.obj d) => (validatePrices (stripMaster d)).1

/-- The dict comprehension of `_archive_old_prices`:
`{key: self.prices[key] for key in updated_keys if key in self.prices}` —
the current value of every updated key that is already present, in update
order. -/
def archiveCapture (prices : List (String × PyVal))
    (updatedKeys : List String) : List (String × PyVal) :=
  updatedKeys.filterMap (fun k => (dictGet prices k).map (fun v => (k, v)))

/-- `PriceManager._archive_old_prices(updated_keys)`: capture the current
value of every updated key that is already present, and append one history
entry when that capture is non-empty. -/
def archiveOldPrices (s : StoreState) (updatedKeys : List String) (t : Nat) :
    StoreState :=
  let toArchive := archiveCapture s.prices updatedKeys
  if toArchive.isEmpty then s
  else { s with history := s.history ++ [⟨t, toArchive⟩] }

/-- `PriceManager._save_prices_to_file`: write the reserved descriptive key
followed by the current prices to the backing file. -/
def savePricesToFile (s : StoreState) : StoreState :=
  { s with file := some (FileData.obj
      (dictUpdate [(masterKey, PyVal.vStr masterDesc)] s.prices)) }

/-- `PriceManager.update_prices(new_prices_data)`: validate; on any error
return `False` with no state change; otherwise archive the prior values of
the updated keys, merge the validated data into the in-memory dict, persist
to the backing file and return `True`.  `t` is the wall-clock timestamp
`datetime.now()` of the call. -/
def updatePrices (s : StoreState) (newPricesData : List (String × PyVal))
    (t : Nat) : Bool × StoreState :=
  let r := validatePrices newPricesData
  if r.2.isEmpty then
    let s1 := archiveOldPrices s (r.1.map (fun p => p.1)) t
    let s2 := { s1 with prices := dictUpdate s1.prices r.1 }
    (true, savePricesToFile s2)
  else
    (false, s)

/-- `PriceManager.backup_prices`: copy the backing file to the `.bak`
location; fails (returns `False`) when the backing file cannot be read
(it does not exist). -/
def backupPrices (s : StoreState) : Bool × StoreState :=
  match s.file with
  | none => (false, s)
  | some f => (true, { s with backupFile := some f })

/-- `PriceManager.restore_prices_from_backup`: if the backup file does not
exist, return `False` with no state change; otherwise copy the backup over
the backing file and reload the in-memory prices from it.  Note the source
performs no archival of the pre-restore live state. -/
def restoreFromBackup (s : StoreState) : Bool × StoreState :=
  match s.backupFile with
  | none => (false, s)
  | some f => (true, { s with file := some f, prices := loadPrices (some f) })

/-- A `PriceManager` constructed over a missing backing file and a missing
backup file: empty prices, empty history. -/
def initState : StoreState :=
  { prices := [], file := none, history := [], backupFile := none }

/-- Fold a list of candidate update maps through `update_prices` (each call
timestamped `0`; the timestamp does not affect prices or files). -/
def applyUpdates (ups : List (List (String × PyVal))) (s : StoreState) :
    StoreState :=
  ups.foldl (fun st u => (updatePrices st u 0).2) s

end PriceManager

/-! ## Menu catalog (`src/menu_definitions.py`) -/

/-- One entry of `DISHES`: display name and the ordered
ingredient → quantity mapping. -/
structure DishInfo where
  name : String
  ingredients : List (String × ℚ)
deriving DecidableEq, Repr

/-- One entry of `COURSES`.  `discountRule` is `some rid` when the course
dict carries a `"discount_rule"` key (`course_info.get` falls back to
`"none"` otherwise). -/
structure CourseInfo where
  description : String
  dishes : List String
  discountRule : Option String
  availableDrinks : List String
deriving DecidableEq, Repr

/-- One entry of `DISCOUNT_RULES`. -/
structure RuleInfo where
  type : String
  value : ℚ
  condition : String
deriving DecidableEq, Repr

/-- One entry of `DRINKS`. -/
structure DrinkInfo where
  name : String
  price : ℚ
deriving DecidableEq, Repr

/-- `menu_definitions.COURSES`. -/
def COURSES : List (String × CourseInfo) :=
  [ ("コースA",
      { description := "季節の味覚を楽しむスタンダードコース"
        dishes := ["前菜A", "スープA", "メインA_鴨", "デザートA"]
        discountRule := some "standard"
        availableDrinks :=
          ["WINE_RED", "WINE_WHITE", "CHAMPAGNE", "BEER", "ORANGE_JUICE"] }),
    ("コースB",
      { description := "贅沢な食材をふんだんに使ったプレミアムコース"
        dishes := ["前菜B", "スープB", "メインB_仔羊", "デザートB"]
        discountRule := some "premium"
        availableDrinks :=
          ["WINE_RED", "WINE_WHITE", "CHAMPAGNE", "BEER", "ORANGE_JUICE"] }) ]

/-- `menu_definitions.DRINKS`. -/
def DRINKS : List (String × DrinkInfo) :=
  [ ("WINE_RED", { name := "ワイン (赤)", price := 800 }),
    ("WINE_WHITE", { name := "ワイン (白)", price := 800 }),
    ("CHAMPAGNE", { name := "シャンパン", price := 1200 }),
    ("BEER", { name := "ビール", price := 600 }),
    ("ORANGE_JUICE", { name := "オレンジジュース", price := 400 }) ]

/-- `menu_definitions.DISHES`. -/
def DISHES : List (String × DishInfo) :=
  [ ("前菜A",
      { name := "ホタテのポワレ トリュフ風味"
        ingredients :=
          [("ホタテ", 80), ("アスパラガス", 30), ("トリュフオイル", 5), ("バター", 10)] }),
    ("スープA",
      { name := "じゃがいもの冷製スープ"
        ingredients := [("ジャガイモ", 150), ("生クリーム", 50), ("ニンニク", 5)] }),
    ("メインA_鴨",
      { name := "鴨肉のロースト ベリーソース"
        ingredients :=
          [("鴨肉", 150), ("ベリー類", 50), ("バター", 15), ("砂糖", 10)] }),
    ("デザートA",
      { name := "季節のフルーツタルト"
        ingredients :=
          [("ベリー類", 60), ("小麦粉", 50), ("バター", 30), ("砂糖", 40), ("生クリーム", 20)] }),
    ("前菜B",
      { name := "キャビアとホタテのカルパッチョ"
        ingredients := [("キャビア", 15), ("ホタテ", 60), ("トリュフオイル", 8)] }),
    ("スープB",
      { name := "フォアグラのポタージュ"
        ingredients := [("フォアグラ", 50), ("ジャガイモ", 100), ("生クリーム", 70)] }),
    ("メインB_仔羊",
      { name := "仔羊の香草焼き ローズマリー風味"
        ingredients :=
          [("仔羊肉", 180), ("ローズマリー", 5), ("ニンニク", 10), ("ジャガイモ", 80), ("バター", 10)] }),
    ("デザートB",
      { name := "濃厚チョコレートムース"
        ingredients :=
          [("チョコレート", 80), ("生クリーム", 100), ("砂糖", 30), ("バター", 20)] }) ]

/-- The `"none"` entry of `DISCOUNT_RULES` (the fallback rule). -/
def noneRule : RuleInfo :=
  { type := "none", value := 0, condition := "割引なし" }

/-- `menu_definitions.DISCOUNT_RULES`. -/
def DISCOUNT_RULES : List (String × RuleInfo) :=
  [ ("standard",
      { type := "percentage", value := 5, condition := "コース合計原価が5000円以上の場合" }),
    ("premium", { type := "fixed", value := 500, condition := "常に適用" }),
    ("none", noneRule) ]

/-! ## Cost Engine (`src/cost_calculator.py`) -/

/-- Error kinds that `load_ingredient_prices` re-raises to its caller. -/
inductive LoadErr where
  | fileNotFoundError
  | jsonDecodeError
deriving DecidableEq, Repr

/-- `cost_calculator.load_ingredient_prices`: unlike the Price Store's
internal load, a missing file re-raises `FileNotFoundError` and a malformed
file re-raises `json.JSONDecodeError`; a parsed object is returned with the
reserved descriptive key stripped (values are not filtered here). -/
def load_ingredient_prices : Option FileData → Except LoadErr (List (String × PyVal))
  | none => Except.error LoadErr.fileNotFoundError
  | some FileData.malformed => Except.error LoadErr.jsonDecodeError
  | some (FileData.obj d) => Except.ok (PriceManager.stripMaster d)

/-- One element of the `ingredient_details` list built by
`calculate_dish_cost`:
`{'name': …, 'quantity': …, 'unit_price': …, 'cost': …}`.  `unit_price` is
the raw snapshot value, or the string `"単価不明"` when the snapshot has no
price for the ingredient. -/
structure IngredientDetail where
  name : String
  quantity : ℚ
  unit_price : PyVal
  cost : ℚ
deriving DecidableEq, Repr

/-- The per-ingredient loop of `calculate_dish_cost`: walk the dish's
ingredient list in definition order; a found price contributes
`quantity * unit_price` to the total, a missing price contributes `0` and is
recorded as `"単価不明"`. -/
def dishIngredientLines (ings : List (String × ℚ))
    (prices : List (String × PyVal)) : ℚ × List IngredientDetail :=
  match ings with
  | [] => (0, [])
  | (ing, q) :: rest =>
    let r := dishIngredientLines rest prices
    match dictGet prices ing with
    | none =>
      (r.1, { name := ing, quantity := q, unit_price := PyVal.vStr "単価不明",
              cost := 0 } :: r.2)
    | some up =>
      (q * up.toNum + r.1,
       { name := ing, quantity := q, unit_price := up,
         cost := q * up.toNum } :: r.2)

/-- `cost_calculator.calculate_dish_cost(dish_id, ingredient_prices)`:
`(0, [])` for an unknown dish id, otherwise the ingredient loop over the
dish's definition. -/
def calculate_dish_cost (dish_id : String) (prices : List (String × PyVal)) :
    ℚ × List IngredientDetail :=
  match dictGet DISHES dish_id with
  | none => (0, [])
  | some info => dishIngredientLines info.ingredients prices

/-- One element of the `dishes_cost` list of a course result. -/
structure DishCostDetail where
  dish_name : String
  cost : ℚ
  ingredients : List IngredientDetail
deriving DecidableEq, Repr

/-- The `discount_info` part of a course result. -/
structure DiscountInfo where
  rule_id : String
  condition : String
  discount_amount : ℚ
  applied : Bool
deriving DecidableEq, Repr

/-- The dictionary returned by `calculate_course_cost` for a known course.
`selected_drinks_info` entries are `(name, price)` pairs. -/
structure CourseCostResult where
  course_name : String
  description : String
  dishes_cost : List DishCostDetail
  subtotal_cost : ℚ
  discount_info : DiscountInfo
  total_food_cost : ℚ
  selected_drinks_info : List (String × ℚ)
  drinks_total_cost : ℚ
  total_cost : ℚ
deriving DecidableEq, Repr

/-- `DISHES.get(dish_id, {}).get("name", dish_id)`. -/
def dishNameOf (dish_id : String) : String :=
  match dictGet DISHES dish_id with
  | some info => info.name
  | none => dish_id

/-- The body of the per-dish loop of `calculate_course_cost`: accumulate the
dish's total into the running subtotal and append its breakdown entry. -/
def courseDishStep (prices : List (String × PyVal))
    (acc : ℚ × List DishCostDetail) (dish_id : String) :
    ℚ × List DishCostDetail :=
  let r := calculate_dish_cost dish_id prices
  (acc.1 + r.1,
   acc.2 ++ [{ dish_name := dishNameOf dish_id, cost := r.1,
               ingredients := r.2 }])

/-- The body of the per-drink loop of `calculate_course_cost`: a drink id
that resolves in `DRINKS` adds its flat price and its detail entry; an
unknown id is skipped (with a printed warning only). -/
def courseDrinkStep (acc : ℚ × List (String × ℚ)) (drink_id : String) :
    ℚ × List (String × ℚ) :=
  match dictGet DRINKS drink_id with
  | some di => (acc.1 + di.price, acc.2 ++ [(di.name, di.price)])
  | none => acc

/-- `DISCOUNT_RULES.get(course_info.get("discount_rule", "none"),
DISCOUNT_RULES["none"])`. -/
def resolvedRule (info : CourseInfo) : RuleInfo :=
  (dictGet DISCOUNT_RULES (info.discountRule.getD "none")).getD noneRule

/-- Discount computation of `calculate_course_cost`: given the resolved rule
and the pre-discount subtotal, return `(discount_amount, applied)`. -/
def courseDiscount (rule : RuleInfo) (subtotal : ℚ) : ℚ × Bool :=
  if rule.type == "percentage" then
    if 5000 ≤ subtotal then (subtotal * (rule.value / 100), true)
    else (0, false)
  else if rule.type == "fixed" then (rule.value, true)
  else (0, false)

/-- The result dictionary `calculate_course_cost` builds for a known course
`info` under `course_id`. -/
def courseResultOf (course_id : String) (info : CourseInfo)
    (prices : List (String × PyVal)) (selectedDrinks : List String) :
    CourseCostResult :=
  let sd := info.dishes.foldl (courseDishStep prices) (0, [])
  let rule := resolvedRule info
  let da := courseDiscount rule sd.1
  let finalFood := sd.1 - da.1
  let dr := selectedDrinks.foldl courseDrinkStep (0, [])
  { course_name := course_id
    description := info.description
    dishes_cost := sd.2
    subtotal_cost := sd.1
    discount_info :=
      { rule_id := info.discountRule.getD "none"
        condition := rule.condition
        discount_amount := da.1
        applied := da.2 }
    total_food_cost := finalFood
    selected_drinks_info := dr.2
    drinks_total_cost := dr.1
    total_cost := finalFood + dr.1 }

/-- `cost_calculator.calculate_course_cost(course_id, ingredient_prices,
selected_drinks)`: `None` for an unknown course id, otherwise the assembled
result dictionary. -/
def calculate_course_cost (course_id : String)
    (prices : List (String × PyVal)) (selectedDrinks : List String) :
    Option CourseCostResult :=
  match dictGet COURSES course_id with
  | none => none
  | some info => some (courseResultOf course_id info prices selectedDrinks)

/-- The contribution of one `(ingredient, quantity)` pair of a dish to the
dish total: `quantity * unit_price` when the snapshot resolves the
ingredient, `0` otherwise. -/
def lineCost (prices : List (String × PyVal)) (iq : String × ℚ) : ℚ :=
  match dictGet prices iq.1 with
  | some v => iq.2 * v.toNum
  | none => 0

/-! ## Dictionary lemmas -/

theorem dictGet_cons {α : Type} (k' : String) (v' : α) (rest : List (String × α))
    (k : String) :
    dictGet ((k', v') :: rest) k =
      bif k' == k then some v' else dictGet rest k := by
  simp only [dictGet, List.find?]
  cases h : (k' == k) <;> simp [h]

theorem dictGet_dictInsert_self {α : Type} (d : List (String × α)) (k : String)
    (v : α) : dictGet (dictInsert d k v) k = some v := by
  induction d with
  | nil => simp [dictGet, dictInsert, List.find?]
  | cons hd tl ih =>
    obtain ⟨k', v'⟩ := hd
    simp only [dictInsert]
    cases h : (k' == k)
    · rw [if_neg (by simp [h]), dictGet_cons, h]
      simpa using ih
    · simp [dictGet_cons]

theorem dictUpdate_singleton {α : Type} (d : List (String × α)) (k : String)
    (v : α) : dictUpdate d [(k, v)] = dictInsert d k v := rfl

/-! ## Validation lemmas -/

namespace PriceManager

theorem validatePrices_eq_of_numeric (l : List (String × PyVal))
    (h : ∀ kv ∈ l, kv.2.isNumeric = true) : validatePrices l = (l, []) := by
  induction l with
  | nil => rfl
  | cons hd tl ih =>
    obtain ⟨k, v⟩ := hd
    have hv : v.isNumeric = true := h (k, v) (List.mem_cons_self _ _)
    have ht : ∀ kv ∈ tl, kv.2.isNumeric = true :=
      fun kv hkv => h kv (List.mem_cons_of_mem _ hkv)
    simp [validatePrices, hv, ih ht]

theorem validatePrices_errs_nil_iff (l : List (String × PyVal)) :
    (validatePrices l).2 = [] ↔ ∀ kv ∈ l, kv.2.isNumeric = true := by
  induction l with
  | nil => simp [validatePrices]
  | cons hd tl ih =>
    obtain ⟨k, v⟩ := hd
    cases hv : v.isNumeric
    · have hstep : (validatePrices ((k, v) :: tl)).2 =
          (s!"invalid non-numeric price for {k}") :: (validatePrices tl).2 := by
        simp [validatePrices, hv]
      rw [hstep]
      refine ⟨fun h => absurd h (List.cons_ne_nil _ _),
        fun h => absurd (h (k, v) (List.mem_cons_self _ _)) (by simp [hv])⟩
    · simp [validatePrices, hv, ih, List.forall_mem_cons]

theorem validatePrices_fst_numeric (l : List (String × PyVal)) :
    ∀ kv ∈ (validatePrices l).1, kv.2.isNumeric = true := by
  induction l with
  | nil => simp [validatePrices]
  | cons hd tl ih =>
    obtain ⟨k, v⟩ := hd
    cases hv : v.isNumeric
    · simpa [validatePrices, hv] using ih
    · intro kv hkv
      rcases (by simpa [validatePrices, hv] using hkv :
          kv = (k, v) ∨ kv ∈ (validatePrices tl).1) with h | h
      · simp [h, hv]
      · exact ih kv h

/-! ## Price Store state lemmas -/

theorem archiveOldPrices_prices (s : StoreState) (keys : List String) (t : Nat) :
    (archiveOldPrices s keys t).prices = s.prices := by
  simp only [archiveOldPrices]
  split <;> rfl

theorem archiveOldPrices_file (s : StoreState) (keys : List String) (t : Nat) :
    (archiveOldPrices s keys t).file = s.file := by
  simp only [archiveOldPrices]
  split <;> rfl

theorem archiveOldPrices_backupFile (s : StoreState) (keys : List String)
    (t : Nat) : (archiveOldPrices s keys t).backupFile = s.backupFile := by
  simp only [archiveOldPrices]
  split <;> rfl

theorem archiveOldPrices_history (s : StoreState) (keys : List String)
    (t : Nat) : ∃ tail, (archiveOldPrices s keys t).history = s.history ++ tail
      ∧ ∀ e ∈ tail, e.timestamp = t := by
  simp only [archiveOldPrices]
  split
  · exact ⟨[], by simp⟩
  · exact ⟨[⟨t, _⟩], rfl, by simp⟩

theorem updatePrices_success (s : StoreState) (cand : List (String × PyVal))
    (t : Nat) (h : ∀ kv ∈ cand, kv.2.isNumeric = true) :
    updatePrices s cand t =
      (true, savePricesToFile
        { archiveOldPrices s (cand.map (fun p => p.1)) t with
          prices :=
            dictUpdate (archiveOldPrices s (cand.map (fun p => p.1)) t).prices
              cand }) := by
  simp [updatePrices, validatePrices_eq_of_numeric cand h]

theorem updatePrices_backupFile (s : StoreState)
    (cand : List (String × PyVal)) (t : Nat) :
    (updatePrices s cand t).2.backupFile = s.backupFile := by
  simp only [updatePrices]
  split
  · simp [savePricesToFile, archiveOldPrices_backupFile]
  · rfl

theorem applyUpdates_backupFile (ups : List (List (String × PyVal)))
    (s : StoreState) : (applyUpdates ups s).backupFile = s.backupFile := by
  induction ups generalizing s with
  | nil => rfl
  | cons u us ih =>
    simp only [applyUpdates, List.foldl_cons]
    rw [show us.foldl (fun st u => (updatePrices st u 0).2)
        (updatePrices s u 0).2 = applyUpdates us (updatePrices s u 0).2 from rfl,
      ih, updatePrices_backupFile]

theorem updatePrices_history_append (s : StoreState)
    (cand : List (String × PyVal)) (t : Nat) :
    ∃ tail, (updatePrices s cand t).2.history = s.history ++ tail
      ∧ ∀ e ∈ tail, e.timestamp = t := by
  simp only [updatePrices]
  split
  · obtain ⟨tail, htail, ht⟩ :=
      archiveOldPrices_history s ((validatePrices cand).1.map (fun p => p.1)) t
    exact ⟨tail, by simpa [savePricesToFile] using htail, ht⟩
  · exact ⟨[], by simp⟩

theorem archiveOldPrices_history_eq (s : StoreState) (keys : List String)
    (t : Nat) :
    (archiveOldPrices s keys t).history =
      s.history ++
        (if archiveCapture s.prices keys = [] then []
         else [⟨t, archiveCapture s.prices keys⟩]) := by
  simp only [archiveOldPrices]
  by_cases hc : archiveCapture s.prices keys = []
  · simp [hc]
  · have hE : (archiveCapture s.prices keys).isEmpty = false := by
      cases hh : (archiveCapture s.prices keys).isEmpty
      · rfl
      · exact absurd (List.isEmpty_iff.mp hh) hc
    simp [hE, hc]

theorem archiveCapture_get (prices : List (String × PyVal))
    (keys : List String) (k : String) (v : PyVal) (hk : k ∈ keys)
    (hv : dictGet prices k = some v) :
    dictGet (archiveCapture prices keys) k = some v := by
  induction keys with
  | nil => cases hk
  | cons x xs ih =>
    by_cases hx : x = k
    · subst hx
      simp [archiveCapture, List.filterMap_cons, hv, dictGet_cons]
    · have hk2 : k ∈ xs := by
        rcases List.mem_cons.mp hk with h | h
        · exact absurd h.symm hx
        · exact h
      have hbeq : (x == k) = false := beq_eq_false_iff_ne.mpr hx
      cases hm : dictGet prices x with
      | none =>
        simpa [archiveCapture, List.filterMap_cons, hm] using ih hk2
      | some w =>
        have hrec := ih hk2
        simp only [archiveCapture, List.filterMap_cons, hm,
          Option.map_some'] at hrec ⊢
        rw [dictGet_cons, hbeq]
        simpa using hrec

theorem updatePrices_history_success (s : StoreState)
    (cand : List (String × PyVal)) (t : Nat)
    (h : (updatePrices s cand t).1 = true) :
    (updatePrices s cand t).2.history =
      s.history ++
        (if archiveCapture s.prices (cand.map (fun p => p.1)) = [] then []
         else [⟨t, archiveCapture s.prices (cand.map (fun p => p.1))⟩]) := by
  cases hE : (validatePrices cand).2.isEmpty
  · simp [updatePrices, hE] at h
  · have hall := (validatePrices_errs_nil_iff cand).mp (List.isEmpty_iff.mp hE)
    rw [updatePrices_success s cand t hall]
    show (archiveOldPrices s (cand.map (fun p => p.1)) t).history = _
    exact archiveOldPrices_history_eq s _ t

end PriceManager

/-! ## Cost Engine lemmas -/

theorem dishIngredientLines_total (ings : List (String × ℚ))
    (prices : List (String × PyVal)) :
    (dishIngredientLines ings prices).1 = (ings.map (lineCost prices)).sum := by
  induction ings with
  | nil => simp [dishIngredientLines]
  | cons hd tl ih =>
    obtain ⟨ing, q⟩ := hd
    simp only [dishIngredientLines, List.map_cons, List.sum_cons]
    cases h : dictGet prices ing with
    | none => simp [lineCost, h, ih]
    | some up => simp [lineCost, h, ih]

theorem dishIngredientLines_names (ings : List (String × ℚ))
    (prices : List (String × PyVal)) :
    (dishIngredientLines ings prices).2.map (fun d => d.name) =
      ings.map (fun p => p.1) := by
  induction ings with
  | nil => simp [dishIngredientLines]
  | cons hd tl ih =>
    obtain ⟨ing, q⟩ := hd
    simp only [dishIngredientLines, List.map_cons]
    cases h : dictGet prices ing with
    | none => simp [h, ih]
    | some up => simp [h, ih]

theorem dishIngredientLines_length (ings : List (String × ℚ))
    (prices : List (String × PyVal)) :
    (dishIngredientLines ings prices).2.length = ings.length := by
  have := congrArg List.length (dishIngredientLines_names ings prices)
  simpa using this

theorem dishIngredientLines_missing (ings : List (String × ℚ))
    (prices : List (String × PyVal)) :
    ∀ d ∈ (dishIngredientLines ings prices).2, dictGet prices d.name = none →
      d.unit_price = PyVal.vStr "単価不明" ∧ d.cost = 0 := by
  induction ings with
  | nil => simp [dishIngredientLines]
  | cons hd tl ih =>
    obtain ⟨ing, q⟩ := hd
    intro d hd hnone
    simp only [dishIngredientLines] at hd
    cases h : dictGet prices ing with
    | none =>
      rw [h] at hd
      simp only [List.mem_cons] at hd
      rcases hd with hd | hd
      · subst hd
        exact ⟨rfl, rfl⟩
      · exact ih d hd hnone
    | some up =>
      rw [h] at hd
      simp only [List.mem_cons] at hd
      rcases hd with hd | hd
      · subst hd
        simp at hnone
        exact absurd h (by simp [hnone])
      · exact ih d hd hnone

theorem foldl_courseDishStep (prices : List (String × PyVal))
    (l : List String) (a : ℚ) (ds : List DishCostDetail) :
    l.foldl (courseDishStep prices) (a, ds) =
      (a + (l.map (fun d => (calculate_dish_cost d prices).1)).sum,
       ds ++ l.map (fun d =>
         { dish_name := dishNameOf d, cost := (calculate_dish_cost d prices).1,
           ingredients := (calculate_dish_cost d prices).2 })) := by
  induction l generalizing a ds with
  | nil => simp
  | cons x xs ih =>
    simp only [List.foldl_cons, courseDishStep, List.map_cons, List.sum_cons]
    rw [ih]
    simp [add_assoc]

theorem foldl_courseDrinkStep (l : List String) (a : ℚ)
    (ds : List (String × ℚ)) :
    l.foldl courseDrinkStep (a, ds) =
      (a + (l.filterMap
              (fun i => (dictGet DRINKS i).map (fun di => di.price))).sum,
       ds ++ l.filterMap
              (fun i => (dictGet DRINKS i).map (fun di => (di.name, di.price)))) := by
  induction l generalizing a ds with
  | nil => simp
  | cons x xs ih =>
    simp only [List.foldl_cons, List.filterMap_cons]
    cases h : dictGet DRINKS x with
    | none =>
      simp only [courseDrinkStep, h]
      rw [ih]
      simp
    | some di =>
      simp only [courseDrinkStep, h]
      rw [ih]
      simp [add_assoc]

theorem courseDiscount_percentage (rule : RuleInfo) (st : ℚ)
    (ht : rule.type = "percentage") (h5 : 5000 ≤ st) :
    courseDiscount rule st = (st * (rule.value / 100), true) := by
  simp [courseDiscount, ht, h5]

theorem courseDiscount_percentage_below (rule : RuleInfo) (st : ℚ)
    (ht : rule.type = "percentage") (h5 : st < 5000) :
    courseDiscount rule st = (0, false) := by
  simp [courseDiscount, ht, not_le.mpr h5]

theorem courseDiscount_fixed (rule : RuleInfo) (st : ℚ)
    (ht : rule.type = "fixed") : courseDiscount rule st = (rule.value, true) := by
  simp [courseDiscount, ht]

theorem courseDiscount_other (rule : RuleInfo) (st : ℚ)
    (h1 : rule.type ≠ "percentage") (h2 : rule.type ≠ "fixed") :
    courseDiscount rule st = (0, false) := by
  simp [courseDiscount, h1, h2]

/-! ## Claim theorems -/

theorem updatePrices_fail (s : PriceManager.StoreState)
    (cand : List (String × PyVal)) (t : Nat)
    (hE : (PriceManager.validatePrices cand).2.isEmpty = false) :
    PriceManager.updatePrices s cand t = (false, s) := by
  simp [PriceManager.updatePrices, hE]

/-- C1 counterexample: the claim also asserts rejection of negative values,
but `_validate_prices` has no negativity check: updating the empty store
with `{"X": -5}` succeeds, stores the negative price and changes state. -/
theorem update_negative_accepted_cex :
    (PriceManager.updatePrices PriceManager.initState
        [("X", PyVal.vInt (-5))] 0).1 = true ∧
    (PriceManager.updatePrices PriceManager.initState
        [("X", PyVal.vInt (-5))] 0).2.prices = [("X", PyVal.vInt (-5))] ∧
    (PriceManager.updatePrices PriceManager.initState
        [("X", PyVal.vInt (-5))] 0).2 ≠ PriceManager.initState := by
  decide

/-- C1 (amended): `update_prices` fails — returning `False` with no state
change at all (same prices, history and backing file) — exactly when some
value of the candidate map is non-numeric; negative numeric values pass
validation and are applied. -/
theorem update_validation_atomic (s : PriceManager.StoreState)
    (cand : List (String × PyVal)) (t : Nat) :
    ((PriceManager.updatePrices s cand t).1 = false ↔
      ∃ kv ∈ cand, kv.2.isNumeric = false) ∧
    ((PriceManager.updatePrices s cand t).1 = false →
      (PriceManager.updatePrices s cand t).2 = s) := by
  constructor
  · constructor
    · intro h
      by_contra hno
      push_neg at hno
      have hall : ∀ kv ∈ cand, kv.2.isNumeric = true := by
        intro kv hkv
        cases hb : kv.2.isNumeric
        · exact absurd hb (hno kv hkv)
        · rfl
      rw [PriceManager.updatePrices_success s cand t hall] at h
      exact absurd h (by simp)
    · rintro ⟨kv, hkv, hnum⟩
      have hne : ¬((PriceManager.validatePrices cand).2 = []) := by
        rw [PriceManager.validatePrices_errs_nil_iff]
        intro hall
        exact absurd (hall kv hkv) (by simp [hnum])
      have hE : (PriceManager.validatePrices cand).2.isEmpty = false := by
        cases hE : (PriceManager.validatePrices cand).2.isEmpty
        · rfl
        · exact absurd (List.isEmpty_iff.mp hE) hne
      rw [updatePrices_fail s cand t hE]
  · intro h
    cases hE : (PriceManager.validatePrices cand).2.isEmpty
    · rw [updatePrices_fail s cand t hE]
    · have hall := (PriceManager.validatePrices_errs_nil_iff cand).mp
        (List.isEmpty_iff.mp hE)
      rw [PriceManager.updatePrices_success s cand t hall] at h
      exact absurd h (by simp)

/-- C1 witness: a concrete non-numeric update is rejected atomically. -/
theorem update_validation_atomic_witness :
    (PriceManager.updatePrices PriceManager.initState
        [("X", PyVal.vStr "bad")] 0).1 = false ∧
    (PriceManager.updatePrices PriceManager.initState
        [("X", PyVal.vStr "bad")] 0).2 = PriceManager.initState := by
  have h := update_validation_atomic PriceManager.initState
    [("X", PyVal.vStr "bad")] 0
  have hf : (PriceManager.updatePrices PriceManager.initState
      [("X", PyVal.vStr "bad")] 0).1 = false :=
    h.1.mpr ⟨("X", PyVal.vStr "bad"), by simp, rfl⟩
  exact ⟨hf, h.2 hf⟩

/-- C5 counterexample: `PriceManager._load_prices` on a malformed backing
file silently yields the empty price map instead of raising a
malformed-store error, and on a well-formed file with an invalid entry it
silently yields a partially filtered map. -/
theorem load_malformed_nonfatal_cex :
    PriceManager.loadPrices (some FileData.malformed) = [] ∧
    PriceManager.loadPrices
        (some (FileData.obj [("A", PyVal.vStr "bad"), ("B", PyVal.vInt 3)])) =
      [("B", PyVal.vInt 3)] := by
  decide

/-- C5 (amended): the Price Store's own load is total and non-fatal — a
malformed backing file yields the empty price map (warning only) and
non-numeric entries are silently filtered, though every price it does load
is numeric; only the Cost Engine's separate loader `load_ingredient_prices`
propagates the decode error (and missing-file error) to its caller. -/
theorem load_nonfatal_behavior :
    PriceManager.loadPrices (some FileData.malformed) = [] ∧
    load_ingredient_prices (some FileData.malformed) =
      Except.error LoadErr.jsonDecodeError ∧
    load_ingredient_prices none = Except.error LoadErr.fileNotFoundError ∧
    ∀ fd, ∀ kv ∈ PriceManager.loadPrices fd, kv.2.isNumeric = true := by
  refine ⟨rfl, rfl, rfl, ?_⟩
  intro fd kv hkv
  match fd with
  | none => simp [PriceManager.loadPrices] at hkv
  | some FileData.malformed => simp [PriceManager.loadPrices] at hkv
  | some (FileData.obj d) =>
    exact PriceManager.validatePrices_fst_numeric _ kv hkv

/-- C5 witness: a loaded binding is indeed numeric. -/
theorem load_nonfatal_behavior_witness :
    ("B", PyVal.vInt 3) ∈
      PriceManager.loadPrices (some (FileData.obj [("B", PyVal.vInt 3)])) ∧
    (PyVal.vInt 3).isNumeric = true :=
  ⟨by decide,
   load_nonfatal_behavior.2.2.2 (some (FileData.obj [("B", PyVal.vInt 3)]))
     ("B", PyVal.vInt 3) (by decide)⟩

/-- C10: booleans count as numeric for validation (`bool` is a subclass of
`int` in Python), so `update_prices({"X": b})` with a boolean succeeds and
stores the boolean as the price, and cost arithmetic then uses it as `1`
(`True`) or `0` (`False`): a one-ingredient dish line over such a snapshot
costs `quantity * 1` or `quantity * 0`. -/
theorem bool_price_spec (s : PriceManager.StoreState) (t : Nat) (b : Bool)
    (q : ℚ) (ing : String) :
    (PyVal.vBool b).isNumeric = true ∧
    (PriceManager.updatePrices s [("X", PyVal.vBool b)] t).1 = true ∧
    dictGet (PriceManager.updatePrices s [("X", PyVal.vBool b)] t).2.prices
      "X" = some (PyVal.vBool b) ∧
    (PyVal.vBool b).toNum = (bif b then 1 else 0) ∧
    (dishIngredientLines [(ing, q)] [(ing, PyVal.vBool b)]).1 =
      q * (bif b then 1 else 0) := by
  have hall : ∀ kv ∈ [("X", PyVal.vBool b)], kv.2.isNumeric = true := by
    intro kv hkv
    simp only [List.mem_singleton] at hkv
    subst hkv
    rfl
  refine ⟨rfl, ?_, ?_, rfl, ?_⟩
  · simp [PriceManager.updatePrices_success s _ t hall]
  · rw [PriceManager.updatePrices_success s _ t hall]
    simp [PriceManager.savePricesToFile, dictUpdate_singleton,
      dictGet_dictInsert_self]
  · simp [dishIngredientLines, dictGet_cons, PyVal.toNum]

/-- C6: archival and append-only history, in general.  (i) Every successful
update extends the history by exactly the diff-archival entry: the prior
values of the updated keys that were present, in update order, tagged with
the call's timestamp (and no entry at all when no updated key was present).
(ii) Hence the prior value of each overwritten key is recoverable by lookup
from the entry appended by the overwriting update.  (iii) An update only
ever appends entries, all tagged with the call's timestamp, so existing
entries are never edited or removed; (iv) backup and restore leave the
history untouched.  (v) Updates issued with nondecreasing timestamps keep
the history sorted by timestamp.  (vi) Concretely, after `update({"X": 10})`
then `update({"X": 20})` from any state, the history contains the entry
recording `X = 10` tagged with the second update's timestamp. -/
theorem history_archival_spec :
    (∀ (s : PriceManager.StoreState) (cand : List (String × PyVal)) (t : Nat),
      (PriceManager.updatePrices s cand t).1 = true →
        (PriceManager.updatePrices s cand t).2.history =
          s.history ++
            (if PriceManager.archiveCapture s.prices
                (cand.map (fun p => p.1)) = [] then []
             else [⟨t, PriceManager.archiveCapture s.prices
                (cand.map (fun p => p.1))⟩])) ∧
    (∀ (s : PriceManager.StoreState) (cand : List (String × PyVal)) (t : Nat)
        (k : String) (v : PyVal),
      (PriceManager.updatePrices s cand t).1 = true →
      k ∈ cand.map (fun p => p.1) →
      dictGet s.prices k = some v →
        ∃ e, (PriceManager.updatePrices s cand t).2.history =
            s.history ++ [e] ∧
          e.timestamp = t ∧ dictGet e.archivedPrices k = some v) ∧
    (∀ (s : PriceManager.StoreState) (cand : List (String × PyVal)) (t : Nat),
      ∃ tail, (PriceManager.updatePrices s cand t).2.history =
          s.history ++ tail ∧ ∀ e ∈ tail, e.timestamp = t) ∧
    (∀ s : PriceManager.StoreState,
      (PriceManager.backupPrices s).2.history = s.history ∧
      (PriceManager.restoreFromBackup s).2.history = s.history) ∧
    (∀ (s : PriceManager.StoreState) (cand : List (String × PyVal)) (t : Nat),
      s.history.Pairwise (fun a b => a.timestamp ≤ b.timestamp) →
      (∀ e ∈ s.history, e.timestamp ≤ t) →
      (PriceManager.updatePrices s cand t).2.history.Pairwise
        (fun a b => a.timestamp ≤ b.timestamp)) ∧
    (∀ (s : PriceManager.StoreState) (t1 t2 : Nat),
      (⟨t2, [("X", PyVal.vInt 10)]⟩ : PriceManager.HistoryEntry) ∈
        ((PriceManager.updatePrices
            ((PriceManager.updatePrices s [("X", PyVal.vInt 10)] t1).2)
            [("X", PyVal.vInt 20)] t2).2).history) := by
  refine ⟨?_, ?_, ?_, ?_, ?_, ?_⟩
  · exact fun s cand t h => PriceManager.updatePrices_history_success s cand t h
  · intro s cand t k v h hk hv
    have hne : PriceManager.archiveCapture s.prices
        (cand.map (fun p => p.1)) ≠ [] := by
      intro h0
      have hg := PriceManager.archiveCapture_get s.prices
        (cand.map (fun p => p.1)) k v hk hv
      rw [h0] at hg
      simp [dictGet] at hg
    refine ⟨⟨t, PriceManager.archiveCapture s.prices (cand.map (fun p => p.1))⟩,
      ?_, rfl, PriceManager.archiveCapture_get _ _ _ _ hk hv⟩
    rw [PriceManager.updatePrices_history_success s cand t h]
    simp [hne]
  · exact fun s cand t => PriceManager.updatePrices_history_append s cand t
  · intro s
    constructor
    · cases hf : s.file <;> simp [PriceManager.backupPrices, hf]
    · cases hb : s.backupFile <;> simp [PriceManager.restoreFromBackup, hb]
  · intro s cand t hsort hle
    obtain ⟨tail, htail, ht⟩ := PriceManager.updatePrices_history_append s cand t
    rw [htail, List.pairwise_append]
    refine ⟨hsort, ?_, ?_⟩
    · exact List.pairwise_of_forall_mem_list
        (fun a ha b hb => by rw [ht a ha, ht b hb])
    · intro a ha b hb
      rw [ht b hb]
      exact hle a ha
  · intro s t1 t2
    have h10 : ∀ kv ∈ [("X", PyVal.vInt 10)], kv.2.isNumeric = true := by
      intro kv hkv
      simp only [List.mem_singleton] at hkv
      subst hkv
      rfl
    have h20 : ∀ kv ∈ [("X", PyVal.vInt 20)], kv.2.isNumeric = true := by
      intro kv hkv
      simp only [List.mem_singleton] at hkv
      subst hkv
      rfl
    have hp1 : ((PriceManager.updatePrices s [("X", PyVal.vInt 10)] t1).2).prices
        = dictInsert s.prices "X" (PyVal.vInt 10) := by
      rw [PriceManager.updatePrices_success s _ t1 h10]
      simp [PriceManager.savePricesToFile, PriceManager.archiveOldPrices_prices,
        dictUpdate_singleton]
    rw [PriceManager.updatePrices_success _ _ t2 h20]
    simp [PriceManager.savePricesToFile, PriceManager.archiveOldPrices,
      PriceManager.archiveCapture, hp1, dictGet_dictInsert_self]

/-- C7: `restore` with no backup fails with no state change; and when the
in-memory prices agree with the backing file (as they do after construction
and after every successful update), a `backup` followed by any sequence of
updates followed by `restore` succeeds and brings `get_prices` back to
exactly the price map that was current at backup time. -/
theorem backup_restore_spec (s : PriceManager.StoreState) (f : FileData)
    (ups : List (List (String × PyVal))) :
    (s.backupFile = none → PriceManager.restoreFromBackup s = (false, s)) ∧
    (s.file = some f → PriceManager.loadPrices s.file = s.prices →
      (PriceManager.restoreFromBackup
        (PriceManager.applyUpdates ups (PriceManager.backupPrices s).2)).1 =
          true ∧
      (PriceManager.restoreFromBackup
        (PriceManager.applyUpdates ups
          (PriceManager.backupPrices s).2)).2.prices = s.prices) := by
  constructor
  · intro h
    simp [PriceManager.restoreFromBackup, h]
  · intro hf hload
    have hb : (PriceManager.backupPrices s).2.backupFile = some f := by
      simp [PriceManager.backupPrices, hf]
    have hb2 : (PriceManager.applyUpdates ups
        (PriceManager.backupPrices s).2).backupFile = some f := by
      rw [PriceManager.applyUpdates_backupFile, hb]
    refine ⟨by simp [PriceManager.restoreFromBackup, hb2], ?_⟩
    simp only [PriceManager.restoreFromBackup, hb2]
    rw [← hf]
    exact hload

/-- C7 witness: restoring on a fresh store fails; after backing up a store
holding `A = 5`, updating `A` to `7` and restoring, the prices are `A = 5`
again. -/
theorem backup_restore_spec_witness :
    PriceManager.restoreFromBackup PriceManager.initState =
      (false, PriceManager.initState) ∧
    (PriceManager.restoreFromBackup
      (PriceManager.applyUpdates [[("A", PyVal.vInt 7)]]
        (PriceManager.backupPrices
          { prices := [("A", PyVal.vInt 5)],
            file := some (FileData.obj
              [(masterKey, PyVal.vStr masterDesc), ("A", PyVal.vInt 5)]),
            history := [], backupFile := none }).2)).2.prices =
      [("A", PyVal.vInt 5)] :=
  ⟨(backup_restore_spec PriceManager.initState FileData.malformed []).1 rfl,
   ((backup_restore_spec
      { prices := [("A", PyVal.vInt 5)],
        file := some (FileData.obj
          [(masterKey, PyVal.vStr masterDesc), ("A", PyVal.vInt 5)]),
        history := [], backupFile := none }
      (FileData.obj [(masterKey, PyVal.vStr masterDesc), ("A", PyVal.vInt 5)])
      [[("A", PyVal.vInt 7)]]).2 rfl (by decide)).2⟩

/-- C9 counterexample: a successful restore does not archive the current
live state: here the restore succeeds, the history is still empty
afterwards, and the pre-restore live map (`A = 5`) is gone. -/
theorem restore_no_archive_cex :
    (PriceManager.restoreFromBackup
      { prices := [("A", PyVal.vInt 5)],
        file := some (FileData.obj [("A", PyVal.vInt 5)]), history := [],
        backupFile := some (FileData.obj [("B", PyVal.vInt 7)]) }).1 = true ∧
    (PriceManager.restoreFromBackup
      { prices := [("A", PyVal.vInt 5)],
        file := some (FileData.obj [("A", PyVal.vInt 5)]), history := [],
        backupFile := some (FileData.obj [("B", PyVal.vInt 7)]) }).2.history =
      [] ∧
    (PriceManager.restoreFromBackup
      { prices := [("A", PyVal.vInt 5)],
        file := some (FileData.obj [("A", PyVal.vInt 5)]), history := [],
        backupFile := some (FileData.obj [("B", PyVal.vInt 7)]) }).2.prices ≠
      [("A", PyVal.vInt 5)] := by
  decide

/-- C9 (amended): a successful restore simply overwrites the backing file
with the backup's contents and reloads it into memory; no archival of the
pre-restore live state takes place — the history is left unchanged by
`restore`, so the pre-restore live state is not preserved anywhere. -/
theorem restore_overwrites_spec (s : PriceManager.StoreState) (f : FileData) :
    (PriceManager.restoreFromBackup s).2.history = s.history ∧
    (s.backupFile = some f →
      PriceManager.restoreFromBackup s =
        (true, { s with file := some f, prices := PriceManager.loadPrices (some f) })) := by
  constructor
  · cases hb : s.backupFile <;> simp [PriceManager.restoreFromBackup, hb]
  · intro hb
    simp [PriceManager.restoreFromBackup, hb]

/-- C9 witness: a concrete successful restore, showing the reloaded prices
and the unchanged (empty) history. -/
theorem restore_overwrites_spec_witness :
    PriceManager.restoreFromBackup
      { prices := [("A", PyVal.vInt 5)], file := none, history := [],
        backupFile := some (FileData.obj [("B", PyVal.vInt 7)]) } =
    (true, { prices := [("B", PyVal.vInt 7)],
             file := some (FileData.obj [("B", PyVal.vInt 7)]),
             history := [],
             backupFile := some (FileData.obj [("B", PyVal.vInt 7)]) }) := by
  rw [(restore_overwrites_spec
    { prices := [("A", PyVal.vInt 5)], file := none, history := [],
      backupFile := some (FileData.obj [("B", PyVal.vInt 7)]) }
    (FileData.obj [("B", PyVal.vInt 7)])).2 rfl]
  rfl

/-- C2: for every known dish and every price snapshot, the dish total is the
sum of `quantity * unit_price` over exactly the ingredients the snapshot
resolves (an unresolved ingredient contributes exactly `0`); the detail list
has one entry per ingredient of the dish definition in definition order, and
an unresolved ingredient's entry carries the non-numeric marker string
`"単価不明"` as its unit price while still being listed. -/
theorem dish_cost_breakdown_spec (dish_id : String) (info : DishInfo)
    (prices : List (String × PyVal))
    (hdish : dictGet DISHES dish_id = some info)
    (hsnap : ∀ kv ∈ prices, kv.2.isNumeric = true) :
    (calculate_dish_cost dish_id prices).1 =
      (info.ingredients.map (lineCost prices)).sum ∧
    (calculate_dish_cost dish_id prices).2.map (fun d => d.name) =
      info.ingredients.map (fun p => p.1) ∧
    (calculate_dish_cost dish_id prices).2.length =
      info.ingredients.length ∧
    ∀ d ∈ (calculate_dish_cost dish_id prices).2,
      dictGet prices d.name = none →
        d.unit_price = PyVal.vStr "単価不明" ∧
        d.unit_price.isNumeric = false ∧ d.cost = 0 := by
  simp only [calculate_dish_cost, hdish]
  refine ⟨dishIngredientLines_total _ _, dishIngredientLines_names _ _,
    dishIngredientLines_length _ _, ?_⟩
  intro d hd hnone
  obtain ⟨h1, h2⟩ :=
    dishIngredientLines_missing info.ingredients prices d hd hnone
  exact ⟨h1, by rw [h1]; rfl, h2⟩

/-- C2 witness: `前菜A` over a snapshot pricing only the scallops: total
`80 * 25 = 2000`, and all four ingredients are still listed. -/
theorem dish_cost_breakdown_spec_witness :
    (calculate_dish_cost "前菜A" [("ホタテ", PyVal.vInt 25)]).1 = 2000 ∧
    (calculate_dish_cost "前菜A" [("ホタテ", PyVal.vInt 25)]).2.length = 4 := by
  have h := dish_cost_breakdown_spec "前菜A"
    { name := "ホタテのポワレ トリュフ風味"
      ingredients :=
        [("ホタテ", 80), ("アスパラガス", 30), ("トリュフオイル", 5), ("バター", 10)] }
    [("ホタテ", PyVal.vInt 25)] (by decide)
    (by
      intro kv hkv
      simp only [List.mem_singleton] at hkv
      subst hkv
      rfl)
  refine ⟨h.1.trans ?_, h.2.2.1.trans rfl⟩
  have e1 : dictGet [("ホタテ", PyVal.vInt 25)] "ホタテ" = some (PyVal.vInt 25) := rfl
  have e2 : dictGet [("ホタテ", PyVal.vInt 25)] "アスパラガス" = none := rfl
  have e3 : dictGet [("ホタテ", PyVal.vInt 25)] "トリュフオイル" = none := rfl
  have e4 : dictGet [("ホタテ", PyVal.vInt 25)] "バター" = none := rfl
  norm_num [lineCost, e1, e2, e3, e4, PyVal.toNum]

/-- C3: the discount computed by `calculate_course_cost` follows the
resolved rule: a `percentage` rule applies exactly when the pre-discount
subtotal is at least `5000` (then the discount is
`subtotal * value / 100`), a `fixed` rule always applies with the rule's
configured value, any other rule type yields no discount, and a discount
rule id absent from `DISCOUNT_RULES` resolves to the `none` rule. -/
theorem course_discount_spec (course_id : String) (info : CourseInfo)
    (prices : List (String × PyVal)) (drinks : List String)
    (hcourse : dictGet COURSES course_id = some info)
    (hsnap : ∀ kv ∈ prices, kv.2.isNumeric = true) :
    ∃ res, calculate_course_cost course_id prices drinks = some res ∧
      res.discount_info.rule_id = info.discountRule.getD "none" ∧
      res.discount_info.condition = (resolvedRule info).condition ∧
      ((resolvedRule info).type = "percentage" →
        (5000 ≤ res.subtotal_cost →
          res.discount_info.discount_amount =
            res.subtotal_cost * ((resolvedRule info).value / 100) ∧
          res.discount_info.applied = true) ∧
        (res.subtotal_cost < 5000 →
          res.discount_info.discount_amount = 0 ∧
          res.discount_info.applied = false)) ∧
      ((resolvedRule info).type = "fixed" →
        res.discount_info.discount_amount = (resolvedRule info).value ∧
        res.discount_info.applied = true) ∧
      ((resolvedRule info).type ≠ "percentage" →
        (resolvedRule info).type ≠ "fixed" →
        res.discount_info.discount_amount = 0 ∧
        res.discount_info.applied = false) ∧
      (dictGet DISCOUNT_RULES (info.discountRule.getD "none") = none →
        resolvedRule info = noneRule) := by
  have hda : (courseResultOf course_id info prices drinks).discount_info.discount_amount
      = (courseDiscount (resolvedRule info)
          ((courseResultOf course_id info prices drinks).subtotal_cost)).1 := rfl
  have hap : (courseResultOf course_id info prices drinks).discount_info.applied
      = (courseDiscount (resolvedRule info)
          ((courseResultOf course_id info prices drinks).subtotal_cost)).2 := rfl
  refine ⟨courseResultOf course_id info prices drinks,
    by simp [calculate_course_cost, hcourse], rfl, rfl, ?_, ?_, ?_, ?_⟩
  · intro ht
    exact ⟨fun h5 =>
        ⟨by rw [hda, courseDiscount_percentage _ _ ht h5],
         by rw [hap, courseDiscount_percentage _ _ ht h5]⟩,
      fun h5 =>
        ⟨by rw [hda, courseDiscount_percentage_below _ _ ht h5],
         by rw [hap, courseDiscount_percentage_below _ _ ht h5]⟩⟩
  · intro ht
    exact ⟨by rw [hda, courseDiscount_fixed _ _ ht],
      by rw [hap, courseDiscount_fixed _ _ ht]⟩
  · intro h1 h2
    exact ⟨by rw [hda, courseDiscount_other _ _ h1 h2],
      by rw [hap, courseDiscount_other _ _ h1 h2]⟩
  · intro h
    simp [resolvedRule, h]

/-- C3 witness: `コースB` resolves the `premium` fixed rule, so the discount
is `500` and applies even over an empty snapshot (subtotal `0`). -/
theorem course_discount_spec_witness :
    ∃ res, calculate_course_cost "コースB" [] [] = some res ∧
      res.discount_info.discount_amount = 500 ∧
      res.discount_info.applied = true := by
  obtain ⟨res, hres, _, _, _, hfixed, _, _⟩ :=
    course_discount_spec "コースB"
      { description := "贅沢な食材をふんだんに使ったプレミアムコース"
        dishes := ["前菜B", "スープB", "メインB_仔羊", "デザートB"]
        discountRule := some "premium"
        availableDrinks :=
          ["WINE_RED", "WINE_WHITE", "CHAMPAGNE", "BEER", "ORANGE_JUICE"] }
      [] [] (by decide)
      (by intro kv hkv; exact absurd hkv (List.not_mem_nil kv))
  obtain ⟨h1, h2⟩ := hfixed (by decide)
  exact ⟨res, hres, h1.trans (by decide), h2⟩

/-- C4: the aggregation equations of `calculate_course_cost`: the subtotal
is the sum of the dish totals over the course's dish list in order (with the
breakdown list in the same order), `total_food_cost` is the subtotal minus
the discount, the drinks total is the sum of the flat prices of exactly the
selected add-on ids that resolve in `DRINKS` (details in input order), and
`total_cost = total_food_cost + drinks_total_cost`. -/
theorem course_totals_spec (course_id : String) (info : CourseInfo)
    (prices : List (String × PyVal)) (drinks : List String)
    (hcourse : dictGet COURSES course_id = some info)
    (hsnap : ∀ kv ∈ prices, kv.2.isNumeric = true) :
    ∃ res, calculate_course_cost course_id prices drinks = some res ∧
      res.subtotal_cost =
        (info.dishes.map (fun d => (calculate_dish_cost d prices).1)).sum ∧
      res.dishes_cost = info.dishes.map (fun d =>
        { dish_name := dishNameOf d, cost := (calculate_dish_cost d prices).1,
          ingredients := (calculate_dish_cost d prices).2 }) ∧
      res.total_food_cost =
        res.subtotal_cost - res.discount_info.discount_amount ∧
      res.selected_drinks_info = drinks.filterMap
        (fun i => (dictGet DRINKS i).map (fun di => (di.name, di.price))) ∧
      res.drinks_total_cost = (drinks.filterMap
        (fun i => (dictGet DRINKS i).map (fun di => di.price))).sum ∧
      res.total_cost = res.total_food_cost + res.drinks_total_cost := by
  refine ⟨courseResultOf course_id info prices drinks,
    by simp [calculate_course_cost, hcourse], ?_, ?_, rfl, ?_, ?_, rfl⟩
  · show (info.dishes.foldl (courseDishStep prices) (0, [])).1 = _
    rw [foldl_courseDishStep]
    simp
  · show (info.dishes.foldl (courseDishStep prices) (0, [])).2 = _
    rw [foldl_courseDishStep]
    simp
  · show (drinks.foldl courseDrinkStep (0, [])).2 = _
    rw [foldl_courseDrinkStep]
    simp
  · show (drinks.foldl courseDrinkStep (0, [])).1 = _
    rw [foldl_courseDrinkStep]
    simp

/-- C4 witness: `コースA` over the empty snapshot with one known and one
unknown drink id: subtotal `0`, drinks total `600` (only the resolvable
`BEER`), and the grand total is food total plus `600`. -/
theorem course_totals_spec_witness :
    ∃ res, calculate_course_cost "コースA" [] ["BEER", "NO_SUCH_DRINK"] =
        some res ∧
      res.subtotal_cost = 0 ∧ res.drinks_total_cost = 600 ∧
      res.total_cost = res.total_food_cost + 600 := by
  obtain ⟨res, hres, hsub, _, _, _, hdr, htot⟩ :=
    course_totals_spec "コースA"
      { description := "季節の味覚を楽しむスタンダードコース"
        dishes := ["前菜A", "スープA", "メインA_鴨", "デザートA"]
        discountRule := some "standard"
        availableDrinks :=
          ["WINE_RED", "WINE_WHITE", "CHAMPAGNE", "BEER", "ORANGE_JUICE"] }
      [] ["BEER", "NO_SUCH_DRINK"] (by decide)
      (by intro kv hkv; exact absurd hkv (List.not_mem_nil kv))
  have h600 : res.drinks_total_cost = 600 := by
    refine hdr.trans ?_
    have e1 : dictGet DRINKS "BEER" = some { name := "ビール", price := 600 } := rfl
    have e2 : dictGet DRINKS "NO_SUCH_DRINK" = none := rfl
    simp [e1, e2]
  refine ⟨res, hres, hsub.trans ?_, h600, ?_⟩
  · have e1 : (calculate_dish_cost "前菜A" []).1 = 0 := rfl
    have e2 : (calculate_dish_cost "スープA" []).1 = 0 := rfl
    have e3 : (calculate_dish_cost "メインA_鴨" []).1 = 0 := rfl
    have e4 : (calculate_dish_cost "デザートA" []).1 = 0 := rfl
    simp [e1, e2, e3, e4]
  · rw [htot, h600]

/-- C8: degraded inputs yield complete results, never exceptions: an unknown
dish id yields exactly `(0, [])`, an unknown course id yields the `None`
sentinel, an unresolved ingredient price is costed `0` and flagged
`"単価不明"` in the detail, and unresolved add-on ids are skipped while the
request completes (the recorded add-ons are exactly the resolvable ones). -/
theorem degraded_result_spec (prices : List (String × PyVal))
    (dish_id course_id : String) (drinks : List String)
    (hsnap : ∀ kv ∈ prices, kv.2.isNumeric = true) :
    (dictGet DISHES dish_id = none →
      calculate_dish_cost dish_id prices = (0, [])) ∧
    (dictGet COURSES course_id = none →
      calculate_course_cost course_id prices drinks = none) ∧
    ((dictGet COURSES course_id).isSome = true →
      (calculate_course_cost course_id prices drinks).isSome = true) ∧
    (∀ d ∈ (calculate_dish_cost dish_id prices).2,
      dictGet prices d.name = none →
        d.cost = 0 ∧ d.unit_price = PyVal.vStr "単価不明") ∧
    (∀ res, calculate_course_cost course_id prices drinks = some res →
      res.selected_drinks_info = drinks.filterMap
        (fun i => (dictGet DRINKS i).map (fun di => (di.name, di.price)))) := by
  refine ⟨?_, ?_, ?_, ?_, ?_⟩
  · intro h
    simp [calculate_dish_cost, h]
  · intro h
    simp [calculate_course_cost, h]
  · intro h
    obtain ⟨info, hinfo⟩ := Option.isSome_iff_exists.mp h
    simp [calculate_course_cost, hinfo]
  · cases hd : dictGet DISHES dish_id with
    | none => simp [calculate_dish_cost, hd]
    | some info =>
      simp only [calculate_dish_cost, hd]
      intro d hmem hnone
      obtain ⟨h1, h2⟩ :=
        dishIngredientLines_missing info.ingredients prices d hmem hnone
      exact ⟨h2, h1⟩
  · intro res hres
    cases hc : dictGet COURSES course_id with
    | none => simp [calculate_course_cost, hc] at hres
    | some info =>
      simp only [calculate_course_cost, hc, Option.some.injEq] at hres
      subst hres
      show (drinks.foldl courseDrinkStep (0, [])).2 = _
      rw [foldl_courseDrinkStep]
      simp

/-- C8 witness: an unknown dish id yields `(0, [])` and an unknown course id
yields `none`. -/
theorem degraded_result_spec_witness :
    calculate_dish_cost "UNKNOWN_DISH" [] = (0, []) ∧
    calculate_course_cost "UNKNOWN_COURSE" [] [] = none := by
  have h := degraded_result_spec [] "UNKNOWN_DISH" "UNKNOWN_COURSE" []
    (by intro kv hkv; exact absurd hkv (List.not_mem_nil kv))
  exact ⟨h.1 (by decide), h.2.1 (by decide)⟩

/-- C6 witness: the two-update scenario on a fresh store concretely; the
per-key recoverability of `X = 10` from the entry appended by the
overwriting update; and sortedness of the resulting history. -/
theorem history_archival_spec_witness :
    (⟨2, [("X", PyVal.vInt 10)]⟩ : PriceManager.HistoryEntry) ∈
      ((PriceManager.updatePrices
          ((PriceManager.updatePrices PriceManager.initState
            [("X", PyVal.vInt 10)] 1).2) [("X", PyVal.vInt 20)] 2).2).history ∧
    (∃ e, (PriceManager.updatePrices
        { prices := [("X", PyVal.vInt 10)], file := none, history := [],
          backupFile := none } [("X", PyVal.vInt 20)] 2).2.history =
        ({ prices := [("X", PyVal.vInt 10)], file := none, history := [],
           backupFile := none } : PriceManager.StoreState).history ++ [e] ∧
      e.timestamp = 2 ∧ dictGet e.archivedPrices "X" = some (PyVal.vInt 10)) ∧
    (PriceManager.updatePrices
        { prices := [("X", PyVal.vInt 10)], file := none, history := [],
          backupFile := none } [("X", PyVal.vInt 20)] 2).2.history.Pairwise
      (fun a b => a.timestamp ≤ b.timestamp) := by
  refine ⟨history_archival_spec.2.2.2.2.2 PriceManager.initState 1 2, ?_, ?_⟩
  · exact history_archival_spec.2.1
      { prices := [("X", PyVal.vInt 10)], file := none, history := [],
        backupFile := none } [("X", PyVal.vInt 20)] 2 "X" (PyVal.vInt 10)
      (by decide) (by decide) rfl
  · exact history_archival_spec.2.2.2.2.1
      { prices := [("X", PyVal.vInt 10)], file := none, history := [],
        backupFile := none } [("X", PyVal.vInt 20)] 2 (by simp) (by simp)
